import Mathlib

namespace CGraphics

/-! Shallow embedding of the cgraphics interactive CPU ray tracer.

`src/main.rs` (the application shell: `RenderApp`, its `Default` impl, and the
per-frame `update`) is embedded directly.  The crate's `camera`, `renderer`,
`scene`, `sphere`, `light` and `intersect` modules are not present in the
source tree, so the parts of them the development needs are modelled from the
specification; each such definition is marked `Modelled from the spec:`.
Rust `f64` arithmetic is modelled by `ℝ`; the `u32` frame counter is a natural
number reduced modulo `2 ^ 32`. -/

/-- A 3-vector with real components (models `nalgebra::Vector3<f64>`). -/
@[ext]
structure Vec3 where
  x : ℝ
  y : ℝ
  z : ℝ

/-- Componentwise vector addition. -/
def Vec3.add (a b : Vec3) : Vec3 := ⟨a.x + b.x, a.y + b.y, a.z + b.z⟩

/-- Componentwise vector subtraction. -/
def Vec3.sub (a b : Vec3) : Vec3 := ⟨a.x - b.x, a.y - b.y, a.z - b.z⟩

/-- Scalar multiple of a vector. -/
def Vec3.smul (c : ℝ) (v : Vec3) : Vec3 := ⟨c * v.x, c * v.y, c * v.z⟩

/-- Dot product. -/
def Vec3.dot (a b : Vec3) : ℝ := a.x * b.x + a.y * b.y + a.z * b.z

/-- Cross product. -/
def Vec3.cross (a b : Vec3) : Vec3 :=
  ⟨a.y * b.z - a.z * b.y, a.z * b.x - a.x * b.z, a.x * b.y - a.y * b.x⟩

/-- Euclidean length of a vector. -/
noncomputable def Vec3.len (v : Vec3) : ℝ := Real.sqrt (v.dot v)

/-- The vector scaled to unit length (models `nalgebra`'s normalization). -/
noncomputable def Vec3.normalize (v : Vec3) : Vec3 := Vec3.smul (1 / v.len) v

/-- A ray: origin and direction (models `renderer::Ray`). -/
@[ext]
structure Ray where
  origin : Vec3
  direction : Vec3

/-- Modelled from the spec: `Ray::new_preserve` (the `renderer` module is not
under `src/`); §4.1: the *preserve* constructor stores origin and direction
exactly as given. -/
def Ray.new_preserve (o d : Vec3) : Ray := ⟨o, d⟩

/-- Modelled from the spec: `Ray::new_normalize` (the `renderer` module is not
under `src/`); §4.1: the *normalize* constructor stores the direction scaled
to unit length. -/
noncomputable def Ray.new_normalize (o d : Vec3) : Ray := ⟨o, d.normalize⟩

/-- A linear RGB color triple. -/
structure Rgb where
  r : ℝ
  g : ℝ
  b : ℝ

/-- Componentwise color addition. -/
def Rgb.add (a b : Rgb) : Rgb := ⟨a.r + b.r, a.g + b.g, a.b + b.b⟩

/-- Componentwise (Hadamard) color product, the spec's `⊙`. -/
def Rgb.hadamard (a b : Rgb) : Rgb := ⟨a.r * b.r, a.g * b.g, a.b * b.b⟩

/-- Color scaled by a real factor. -/
def Rgb.smul (c : ℝ) (a : Rgb) : Rgb := ⟨c * a.r, c * a.g, c * a.b⟩

/-- Linear premultiplied RGBA (models `egui::Rgba`). -/
structure Rgba where
  r : ℝ
  g : ℝ
  b : ℝ
  a : ℝ

/-- `egui::Rgba::from_gray(l)`: the gray pixel `(l, l, l, 1)`. -/
def Rgba.from_gray (l : ℝ) : Rgba := ⟨l, l, l, 1⟩

/-- Modelled from the spec: `sphere::Sphere` (module not under `src/`);
§3: center, radius, and albedo in linear RGB. -/
structure Sphere where
  center : Vec3
  radius : ℝ
  albedo : Rgb

/-- Modelled from the spec: the lights (`light` module not under `src/`);
§3: a point light has a position, an intensity and an optional falloff
exponent; an ambient light has an intensity. -/
inductive Light where
  | point (position : Vec3) (intensity : Rgb) (falloff : Option ℝ)
  | ambient (intensity : Rgb)

/-- Modelled from the spec: `scene::Scene` (module not under `src/`);
§3: an ordered sequence of spheres and an ordered sequence of lights. -/
structure Scene where
  spheres : List Sphere
  lights : List Light

/-- Modelled from the spec: ray/sphere intersection (`intersect` module not
under `src/`); §4.1: with `L = O − C`, solve `a t² + b t + c = 0` for
`a = D·D`, `b = 2 L·D`, `c = L·L − r²`; a negative discriminant is a miss,
otherwise return the smallest root `> ε` with `ε = 1e-4`, and a miss when
both roots are `≤ ε`. -/
noncomputable def Sphere.intersect (s : Sphere) (ray : Ray) : Option ℝ :=
  let L := ray.origin.sub s.center
  let a := ray.direction.dot ray.direction
  let b := 2 * (L.dot ray.direction)
  let c := L.dot L - s.radius ^ 2
  let disc := b ^ 2 - 4 * a * c
  if disc < 0 then none
  else
    let t0 := (-b - Real.sqrt disc) / (2 * a)
    let t1 := (-b + Real.sqrt disc) / (2 * a)
    if 1e-4 < t0 then some t0
    else if 1e-4 < t1 then some t1
    else none

/-- Modelled from the spec: a `Hit` (§3): ray parameter `t`, surface point,
outward normal `(P − C)/r`, and the object that was hit. -/
structure Hit where
  t : ℝ
  point : Vec3
  normal : Vec3
  object : Sphere

/-- The hit record for parameter `t` on a sphere, per §4.1: point `O + tD`,
outward normal `(P − C)/r`. -/
noncomputable def Sphere.hitAt (s : Sphere) (ray : Ray) (t : ℝ) : Hit :=
  let p := ray.origin.add (Vec3.smul t ray.direction)
  ⟨t, p, Vec3.smul (1 / s.radius) (p.sub s.center), s⟩

/-- Modelled from the spec: `Scene::query` (module `scene` not under `src/`);
§4.1–§4.2: iterate all spheres, keep the hit with smallest positive `t`,
tie-break by first occurrence in the sphere sequence. -/
noncomputable def Scene.query (sc : Scene) (ray : Ray) : Option Hit :=
  sc.spheres.foldl
    (fun best s =>
      match s.intersect ray with
      | none => best
      | some t =>
        match best with
        | none => some (s.hitAt ray t)
        | some h => if t < h.t then some (s.hitAt ray t) else best)
    none

/-- Clamp a channel to `[0, 1]` (spec §4.3 step 4). -/
def clamp01 (v : ℝ) : ℝ := min 1 (max 0 v)

/-- Modelled from the spec: shading (§4.3, the `light`/`renderer` modules are
not under `src/`): starting from zero, add `albedo ⊙ intensity` for every
ambient light and `albedo ⊙ intensity · cos θ · attenuation` for every point
light (no shadow rays), clamp each channel to `[0, 1]`, alpha `1`. -/
noncomputable def Scene.shade (sc : Scene) (h : Hit) : Rgba :=
  let c : Rgb := sc.lights.foldl
    (fun (acc : Rgb) (l : Light) =>
      match l with
      | .ambient i => acc.add (h.object.albedo.hadamard i)
      | .point pos i falloff =>
        let toLight := (pos.sub h.point).normalize
        let cosTheta := max 0 (h.normal.dot toLight)
        let att :=
          match falloff with
          | none => 1
          | some k => 1 / (1 + Real.rpow ((pos.sub h.point).len) k)
        acc.add (Rgb.smul (cosTheta * att) (h.object.albedo.hadamard i)))
    ⟨0, 0, 0⟩
  ⟨clamp01 c.r, clamp01 c.g, clamp01 c.b, 1⟩

/-- `camera::Camera` as constructed in `main.rs`: the pose lives in `location`
(origin and forward direction), plus the output dimensions in pixels. -/
structure Camera where
  location : Ray
  width : ℕ
  height : ℕ

/-- Modelled from the spec: the background color for a miss (§4.3: the
reference source uses black), with alpha `1`. -/
def background : Rgba := ⟨0, 0, 0, 1⟩

/-- Modelled from the spec: the per-pixel work of `Camera::create_buffer`
(the `camera` module is not under `src/`); §4.4: normalize the forward
direction, build the orthonormal basis from world-up `(0,0,1)` (fallback
`(0,1,0)` when the forward is parallel to it), map pixel `(col,row)` to
`u = (col+0.5)/W − 0.5`, `v = 0.5 − (row+0.5)/H`, shoot the primary ray
`normalize(F + u·right + v·up)` from the camera origin, query the scene and
shade the hit or return the background. -/
noncomputable def Camera.renderPixel (cam : Camera) (sc : Scene) (row col : ℕ) : Rgba :=
  let F := cam.location.direction.normalize
  let c1 := F.cross ⟨0, 0, 1⟩
  let right :=
    if c1.x = 0 ∧ c1.y = 0 ∧ c1.z = 0 then (F.cross ⟨0, 1, 0⟩).normalize
    else c1.normalize
  let up := (right.cross F).normalize
  let u := ((col : ℝ) + 0.5) / (cam.width : ℝ) - 0.5
  let v := 0.5 - ((row : ℝ) + 0.5) / (cam.height : ℝ)
  let ray := Ray.new_normalize cam.location.origin
    (F.add ((Vec3.smul u right).add (Vec3.smul v up)))
  match sc.query ray with
  | some h => sc.shade h
  | none => background

/-- Modelled from the spec: `Camera::create_buffer` (the `camera` module is
not under `src/`); §4.4: fill an `H × W` buffer of shaded pixels, row-major,
row `0` at the top. -/
noncomputable def Camera.create_buffer (cam : Camera) (sc : Scene) : List (List Rgba) :=
  (List.range cam.height).map fun row =>
    (List.range cam.width).map fun col => cam.renderPixel sc row col

/-- The subset of `egui::Key` relevant to the app: the eight keys that
`main.rs` matches on, plus a sample of the other keys (the `_` arm). -/
inductive Key where
  | W | S | A | D | Z | X | ArrowLeft | ArrowRight
  | ArrowUp | ArrowDown | Q | E | R | F | T | Space | Enter | Escape
deriving DecidableEq

/-- `f64::atan2`: `y.atan2(x)` is the angle of the point `(x, y)`, modelled
as the complex argument of `x + y·i`. -/
noncomputable def atan2 (y x : ℝ) : ℝ := Complex.arg ⟨x, y⟩

/-- One arm of the `keys_down` loop in `RenderApp::update` (`main.rs` lines
119–159): the effect of a single pressed key on the camera pose.  The six
letter keys shift one origin component by `±0.1`; the arrow keys convert the
direction's `(x, y)` to polar form with `atan2`/`sqrt`, shift the angle by
`∓0.01`, and convert back with `cos`/`sin`; every other key does nothing. -/
noncomputable def applyKey (c : Camera) (k : Key) : Camera :=
  match k with
  | .W => { c with location := { c.location with origin :=
      { c.location.origin with x := c.location.origin.x + 0.1 } } }
  | .S => { c with location := { c.location with origin :=
      { c.location.origin with x := c.location.origin.x - 0.1 } } }
  | .A => { c with location := { c.location with origin :=
      { c.location.origin with y := c.location.origin.y - 0.1 } } }
  | .D => { c with location := { c.location with origin :=
      { c.location.origin with y := c.location.origin.y + 0.1 } } }
  | .Z => { c with location := { c.location with origin :=
      { c.location.origin with z := c.location.origin.z + 0.1 } } }
  | .X => { c with location := { c.location with origin :=
      { c.location.origin with z := c.location.origin.z - 0.1 } } }
  | .ArrowLeft =>
    let x := c.location.direction.x
    let y := c.location.direction.y
    let theta := atan2 y x
    let r := Real.sqrt (x ^ 2 + y ^ 2)
    let theta1 := theta - 0.01
    { c with location := { c.location with direction :=
        { c.location.direction with
            x := Real.cos theta1 * r, y := Real.sin theta1 * r } } }
  | .ArrowRight =>
    let x := c.location.direction.x
    let y := c.location.direction.y
    let theta := atan2 y x
    let r := Real.sqrt (x ^ 2 + y ^ 2)
    let theta1 := theta + 0.01
    { c with location := { c.location with direction :=
        { c.location.direction with
            x := Real.cos theta1 * r, y := Real.sin theta1 * r } } }
  | _ => c

/-- Rotation of the `(x, y)` components of a vector about the world-Z axis by
`a` radians; the `z` component is untouched.  This is the reference against
which the polar-form update of `applyKey` is compared. -/
noncomputable def rotZ (a : ℝ) (v : Vec3) : Vec3 :=
  ⟨v.x * Real.cos a - v.y * Real.sin a,
   v.x * Real.sin a + v.y * Real.cos a,
   v.z⟩

/-- One Left-arrow press. -/
noncomputable def stepLeft (c : Camera) : Camera := applyKey c .ArrowLeft

/-- One Right-arrow press. -/
noncomputable def stepRight (c : Camera) : Camera := applyKey c .ArrowRight

/-- One W press. -/
noncomputable def stepW (c : Camera) : Camera := applyKey c .W

/-- The application state (`RenderApp` in `main.rs`).  The frame counter is a
Rust `u32`, modelled as a natural number kept below `2 ^ 32`. -/
structure RenderApp where
  buffer : List (List Rgba)
  camera : Camera
  scene : Scene
  frame_count : ℕ

/-- Modelled from the spec: `Scene::pondering_orbs` (the `scene` module is not
under `src/`); §4.2: a fixed demo scene — three spheres of distinct albedos
arranged along the camera forward axis, one ambient light, one point light
(exact coordinates are implementation-defined). -/
def Scene.pondering_orbs : Scene :=
  { spheres :=
      [⟨⟨0, 0, 0⟩, 1, ⟨1, 0, 0⟩⟩,
       ⟨⟨3, 1, 0⟩, 1, ⟨0, 1, 0⟩⟩,
       ⟨⟨6, -1, 0⟩, 1, ⟨0, 0, 1⟩⟩]
    lights := [.ambient ⟨0.1, 0.1, 0.1⟩, .point ⟨-10, 0, 0⟩ ⟨1, 1, 1⟩ none] }

/-- `impl Default for RenderApp` (`main.rs` lines 77–106): a 500-wide,
800-tall buffer of black pixels, the camera at `(−10, 0, 0)` looking along
`(1, 0, 0)` (stored via `Ray::new_preserve`), the demo scene, and a frame
counter starting at `0`. -/
def RenderApp.default : RenderApp :=
  let width := 500
  let height := 800
  let row := List.replicate width (Rgba.from_gray 0)
  let buffer := List.replicate height row
  let ray_location : Vec3 := ⟨-10, 0, 0⟩
  let ray_direction : Vec3 := ⟨1, 0, 0⟩
  let origin_ray := Ray.new_preserve ray_location ray_direction
  { buffer := buffer
    camera := { location := origin_ray, width := width, height := height }
    scene := Scene.pondering_orbs
    frame_count := 0 }

/-- One frame of `RenderApp::update` (`main.rs` lines 110–164), in the
source's order: first render the buffer from the current camera
(`update_buffer_sharedstate`), then increment the `u32` frame counter, and
only then fold the pressed-keys snapshot into the camera pose
(`ctx.input(...)`). -/
noncomputable def RenderApp.update (s : RenderApp) (keys_down : List Key) : RenderApp :=
  let buffer := s.camera.create_buffer s.scene
  let frame_count := (s.frame_count + 1) % 2 ^ 32
  let camera := keys_down.foldl applyKey s.camera
  { buffer := buffer, camera := camera, scene := s.scene, frame_count := frame_count }

/-- A one-sphere, ambient-only scene used to compare renders from two camera
poses. -/
def orderScene : Scene :=
  { spheres := [⟨⟨0, 0, 0⟩, 1, ⟨1, 0, 0⟩⟩]
    lights := [.ambient ⟨0.1, 0.1, 0.1⟩] }

/-- A 1×1 camera whose single primary ray grazes `orderScene`'s sphere: it
hits from `y = 0.95`, and one `D` press (to `y = 1.05`) makes it miss. -/
def orderCamera : Camera :=
  { location := Ray.new_preserve ⟨-10, 0.95, 0⟩ ⟨1, 0, 0⟩, width := 1, height := 1 }

/-- An application state holding `orderCamera` and `orderScene`. -/
def orderState : RenderApp :=
  { buffer := [], camera := orderCamera, scene := orderScene, frame_count := 0 }

/-! ### Polar-form rotation: `applyKey` on the arrow keys is a Z-rotation -/

lemma sqrt_sq_add_sq (x y : ℝ) : Real.sqrt (x ^ 2 + y ^ 2) = Complex.abs ⟨x, y⟩ := by
  rw [Complex.abs_apply, Complex.normSq_mk]
  congr 1
  ring

lemma cos_atan2_mul (y x : ℝ) :
    Real.cos (atan2 y x) * Real.sqrt (x ^ 2 + y ^ 2) = x := by
  rw [atan2, sqrt_sq_add_sq, mul_comm]
  exact Complex.abs_mul_cos_arg ⟨x, y⟩

lemma sin_atan2_mul (y x : ℝ) :
    Real.sin (atan2 y x) * Real.sqrt (x ^ 2 + y ^ 2) = y := by
  rw [atan2, sqrt_sq_add_sq, mul_comm]
  exact Complex.abs_mul_sin_arg ⟨x, y⟩

lemma rot_step_x (x y a : ℝ) :
    Real.cos (atan2 y x + a) * Real.sqrt (x ^ 2 + y ^ 2)
      = x * Real.cos a - y * Real.sin a := by
  rw [Real.cos_add]
  linear_combination Real.cos a * cos_atan2_mul y x - Real.sin a * sin_atan2_mul y x

lemma rot_step_y (x y a : ℝ) :
    Real.sin (atan2 y x + a) * Real.sqrt (x ^ 2 + y ^ 2)
      = x * Real.sin a + y * Real.cos a := by
  rw [Real.sin_add]
  linear_combination Real.sin a * cos_atan2_mul y x + Real.cos a * sin_atan2_mul y x

lemma applyKey_arrowRight (c : Camera) :
    applyKey c .ArrowRight =
      { c with location := { c.location with
          direction := rotZ 0.01 c.location.direction } } := by
  have hx := rot_step_x c.location.direction.x c.location.direction.y 0.01
  have hy := rot_step_y c.location.direction.x c.location.direction.y 0.01
  simp only [applyKey, rotZ, Camera.mk.injEq, Ray.mk.injEq, Vec3.mk.injEq,
    and_true, true_and]
  exact ⟨hx, hy⟩

lemma applyKey_arrowLeft (c : Camera) :
    applyKey c .ArrowLeft =
      { c with location := { c.location with
          direction := rotZ (-0.01) c.location.direction } } := by
  have hx := rot_step_x c.location.direction.x c.location.direction.y (-0.01)
  have hy := rot_step_y c.location.direction.x c.location.direction.y (-0.01)
  rw [← sub_eq_add_neg] at hx hy
  simp only [applyKey, rotZ, Camera.mk.injEq, Ray.mk.injEq, Vec3.mk.injEq,
    and_true, true_and]
  exact ⟨hx, hy⟩

lemma rotZ_zero (v : Vec3) : rotZ 0 v = v := by
  ext <;> simp [rotZ]

lemma rotZ_rotZ (a b : ℝ) (v : Vec3) : rotZ a (rotZ b v) = rotZ (a + b) v := by
  ext <;> simp only [rotZ] <;> rw [Real.cos_add, Real.sin_add] <;> ring

lemma rotZ_planar (a : ℝ) (v : Vec3) :
    (rotZ a v).x ^ 2 + (rotZ a v).y ^ 2 = v.x ^ 2 + v.y ^ 2 := by
  simp only [rotZ]
  linear_combination (v.x ^ 2 + v.y ^ 2) * Real.sin_sq_add_cos_sq a

lemma stepRight_iter (n : ℕ) (c : Camera) :
    stepRight^[n] c =
      { c with location := { c.location with
          direction := rotZ (0.01 * n) c.location.direction } } := by
  induction n with
  | zero =>
    simp only [Function.iterate_zero, id_eq, Nat.cast_zero, mul_zero, rotZ_zero]
  | succ n ih =>
    rw [Function.iterate_succ_apply', ih]
    simp only [stepRight]
    rw [applyKey_arrowRight]
    simp only [rotZ_rotZ]
    have h : (0.01 : ℝ) + 0.01 * n = 0.01 * ((n : ℕ) + 1 : ℕ) := by
      push_cast
      ring
    rw [h]

lemma stepLeft_iter (n : ℕ) (c : Camera) :
    stepLeft^[n] c =
      { c with location := { c.location with
          direction := rotZ (-(0.01 * n)) c.location.direction } } := by
  induction n with
  | zero =>
    simp only [Function.iterate_zero, id_eq, Nat.cast_zero, mul_zero, neg_zero,
      rotZ_zero]
  | succ n ih =>
    rw [Function.iterate_succ_apply', ih]
    simp only [stepLeft]
    rw [applyKey_arrowLeft]
    simp only [rotZ_rotZ]
    have h : (-0.01 : ℝ) + -(0.01 * n) = -(0.01 * ((n : ℕ) + 1 : ℕ)) := by
      push_cast
      ring
    rw [h]

lemma stepW_iter (n : ℕ) (c : Camera) :
    stepW^[n] c =
      { c with location := { c.location with origin :=
          { c.location.origin with x := c.location.origin.x + 0.1 * n } } } := by
  induction n with
  | zero =>
    simp only [Function.iterate_zero, id_eq, Nat.cast_zero, mul_zero, add_zero]
  | succ n ih =>
    rw [Function.iterate_succ_apply', ih]
    simp only [stepW, applyKey, Camera.mk.injEq, Ray.mk.injEq, Vec3.mk.injEq,
      and_true, true_and]
    push_cast
    ring

/-! ### Numeric bounds for 628 steps of 0.01 rad -/

lemma sub_two_pi_bounds :
    -0.0032 ≤ 6.28 - 2 * Real.pi ∧ 6.28 - 2 * Real.pi ≤ -0.0031 := by
  have h1 := Real.pi_gt_d6
  have h2 := Real.pi_lt_d6
  constructor <;> linarith

lemma abs_sin_628 : |Real.sin 6.28 - 0| ≤ 1e-2 := by
  have h : Real.sin 6.28 = Real.sin (6.28 - 2 * Real.pi) := by
    rw [← Real.sin_add_two_pi (6.28 - 2 * Real.pi)]
    ring_nf
  have hb := sub_two_pi_bounds
  have habs : |Real.sin (6.28 - 2 * Real.pi)| ≤ |6.28 - 2 * Real.pi| :=
    Real.abs_sin_le_abs
  have habs2 : |6.28 - 2 * Real.pi| ≤ 0.0032 :=
    abs_le.2 ⟨by linarith [hb.1], by linarith [hb.2]⟩
  rw [sub_zero, h]
  rw [abs_le] at habs ⊢
  constructor <;> linarith [habs.1, habs.2]

lemma abs_cos_628 : |Real.cos 6.28 - 1| ≤ 1e-2 := by
  have h : Real.cos 6.28 = Real.cos (6.28 - 2 * Real.pi) := by
    rw [← Real.cos_add_two_pi (6.28 - 2 * Real.pi)]
    ring_nf
  have hb := sub_two_pi_bounds
  have hlow := Real.one_sub_sq_div_two_le_cos (x := 6.28 - 2 * Real.pi)
  have hhigh := Real.cos_le_one (6.28 - 2 * Real.pi)
  rw [h, abs_le]
  constructor <;> nlinarith [hb.1, hb.2]

lemma add_tenth_ne (x : ℝ) : x + 0.1 ≠ x := by
  intro h
  have h0 : (0.1 : ℝ) = 0 := by linarith
  norm_num at h0

lemma sub_tenth_ne (x : ℝ) : x - 0.1 ≠ x := by
  intro h
  have h0 : (0.1 : ℝ) = 0 := by linarith
  norm_num at h0

/-! ### The claims -/

/-- C2: in every frame in which a translation key is held, the camera origin
is translated by an axis-aligned world-space delta, once per held key per
frame: `W` adds `0.1` to `origin.x`, `S` subtracts `0.1` from `origin.x`,
`A` subtracts `0.1` from `origin.y`, `D` adds `0.1` to `origin.y`, `Z` adds
`0.1` to `origin.z`, `X` subtracts `0.1` from `origin.z`; the frame update
folds each held key into the camera exactly once. -/
theorem C2_translation_deltas :
    (∀ c : Camera,
      applyKey c .W = { c with location := { c.location with origin :=
        { c.location.origin with x := c.location.origin.x + 0.1 } } } ∧
      applyKey c .S = { c with location := { c.location with origin :=
        { c.location.origin with x := c.location.origin.x - 0.1 } } } ∧
      applyKey c .A = { c with location := { c.location with origin :=
        { c.location.origin with y := c.location.origin.y - 0.1 } } } ∧
      applyKey c .D = { c with location := { c.location with origin :=
        { c.location.origin with y := c.location.origin.y + 0.1 } } } ∧
      applyKey c .Z = { c with location := { c.location with origin :=
        { c.location.origin with z := c.location.origin.z + 0.1 } } } ∧
      applyKey c .X = { c with location := { c.location with origin :=
        { c.location.origin with z := c.location.origin.z - 0.1 } } }) ∧
    ∀ (s : RenderApp) (ks : List Key),
      (s.update ks).camera = ks.foldl applyKey s.camera :=
  ⟨fun _ => ⟨rfl, rfl, rfl, rfl, rfl, rfl⟩, fun _ _ => rfl⟩

/-- C3: a held Left (resp. Right) arrow key rotates the forward direction's
`(x, y)` components about the world-Z axis by `−0.01` (resp. `+0.01`)
radians, exactly once per frame, and `N` consecutive frames compose to a
rotation by `0.01·N` radians in total. -/
theorem C3_arrow_rotation :
    (∀ c : Camera, applyKey c .ArrowLeft =
      { c with location := { c.location with
          direction := rotZ (-0.01) c.location.direction } }) ∧
    (∀ c : Camera, applyKey c .ArrowRight =
      { c with location := { c.location with
          direction := rotZ 0.01 c.location.direction } }) ∧
    (∀ (n : ℕ) (c : Camera),
      (stepRight^[n] c).location.direction
        = rotZ (0.01 * n) c.location.direction) ∧
    (∀ (n : ℕ) (c : Camera),
      (stepLeft^[n] c).location.direction
        = rotZ (-(0.01 * n)) c.location.direction) := by
  refine ⟨applyKey_arrowLeft, applyKey_arrowRight, ?_, ?_⟩
  · intro n c
    rw [stepRight_iter]
  · intro n c
    rw [stepLeft_iter]

/-- C4: one Left- or Right-arrow rotation preserves the planar magnitude
`‖(fx, fy)‖` and the `z` component of the forward direction. -/
theorem C4_rotation_preserves (c : Camera) :
    (Real.sqrt ((applyKey c .ArrowLeft).location.direction.x ^ 2 +
        (applyKey c .ArrowLeft).location.direction.y ^ 2)
      = Real.sqrt (c.location.direction.x ^ 2 + c.location.direction.y ^ 2) ∧
     (applyKey c .ArrowLeft).location.direction.z = c.location.direction.z) ∧
    (Real.sqrt ((applyKey c .ArrowRight).location.direction.x ^ 2 +
        (applyKey c .ArrowRight).location.direction.y ^ 2)
      = Real.sqrt (c.location.direction.x ^ 2 + c.location.direction.y ^ 2) ∧
     (applyKey c .ArrowRight).location.direction.z = c.location.direction.z) := by
  simp only [applyKey_arrowLeft, applyKey_arrowRight]
  exact ⟨⟨by rw [rotZ_planar], rfl⟩, ⟨by rw [rotZ_planar], rfl⟩⟩

/-- C5: starting from forward direction `(1, 0, 0)`, 628 Right-arrow
rotations (a total of ≈ 2π radians in steps of 0.01) bring the forward
direction back to within `1e-2` of `(1, 0, 0)` in every component. -/
theorem C5_full_turn (c : Camera) (h : c.location.direction = ⟨1, 0, 0⟩) :
    |(stepRight^[628] c).location.direction.x - 1| ≤ 1e-2 ∧
    |(stepRight^[628] c).location.direction.y - 0| ≤ 1e-2 ∧
    |(stepRight^[628] c).location.direction.z - 0| ≤ 1e-2 := by
  rw [stepRight_iter, h]
  have ha : (0.01 : ℝ) * ((628 : ℕ) : ℝ) = 6.28 := by norm_num
  simp only [rotZ, ha, one_mul, zero_mul, sub_zero, add_zero, mul_zero]
  refine ⟨abs_cos_628, ?_, by norm_num⟩
  have hy := abs_sin_628
  rw [sub_zero] at hy
  simpa using hy

/-- Witness for `C5_full_turn` at the startup camera. -/
theorem C5_full_turn_witness :
    RenderApp.default.camera.location.direction = ⟨1, 0, 0⟩ ∧
    (|(stepRight^[628] RenderApp.default.camera).location.direction.x - 1| ≤ 1e-2 ∧
     |(stepRight^[628] RenderApp.default.camera).location.direction.y - 0| ≤ 1e-2 ∧
     |(stepRight^[628] RenderApp.default.camera).location.direction.z - 0| ≤ 1e-2) :=
  ⟨rfl, C5_full_turn RenderApp.default.camera rfl⟩

/-- C6: from origin `(−10, 0, 0)`, ten W presses move the camera origin to
exactly `(−9, 0, 0)`; the `y` and `z` components are unchanged. -/
theorem C6_ten_w (c : Camera) (h : c.location.origin = ⟨-10, 0, 0⟩) :
    (stepW^[10] c).location.origin = ⟨-9, 0, 0⟩ := by
  rw [stepW_iter, h]
  ext <;> push_cast <;> norm_num

/-- Witness for `C6_ten_w` at the startup camera. -/
theorem C6_ten_w_witness :
    RenderApp.default.camera.location.origin = ⟨-10, 0, 0⟩ ∧
    (stepW^[10] RenderApp.default.camera).location.origin = ⟨-9, 0, 0⟩ :=
  ⟨rfl, C6_ten_w RenderApp.default.camera rfl⟩

/-- C7: at startup the render buffer is 500 pixels wide by 800 pixels tall
(800 rows of 500 black pixels each) and the camera is initialized with origin
`(−10, 0, 0)` and forward direction `(1, 0, 0)`. -/
theorem C7_startup :
    RenderApp.default.buffer.length = 800 ∧
    RenderApp.default.buffer.map List.length = List.replicate 800 500 ∧
    RenderApp.default.buffer
      = List.replicate 800 (List.replicate 500 (Rgba.from_gray 0)) ∧
    RenderApp.default.camera.width = 500 ∧
    RenderApp.default.camera.height = 800 ∧
    RenderApp.default.camera.location.origin = ⟨-10, 0, 0⟩ ∧
    RenderApp.default.camera.location.direction = ⟨1, 0, 0⟩ := by
  have hbuf : RenderApp.default.buffer
      = List.replicate 800 (List.replicate 500 (Rgba.from_gray 0)) := rfl
  refine ⟨?_, ?_, hbuf, rfl, rfl, rfl, rfl⟩
  · rw [hbuf, List.length_replicate]
  · rw [hbuf, List.map_replicate, List.length_replicate]

/-- C8 as stated is false on the code: the frame counter is a `u32`, and the
update from its maximum value `2^32 − 1` wraps it to `0` — a decrease. -/
theorem C8_counterexample :
    ({ RenderApp.default with frame_count := 2 ^ 32 - 1 }.update []).frame_count = 0 ∧
    ¬ (2 ^ 32 - 1 : ℕ) ≤
        ({ RenderApp.default with frame_count := 2 ^ 32 - 1 }.update []).frame_count := by
  have h : ({ RenderApp.default with frame_count := 2 ^ 32 - 1 }.update []).frame_count
      = (2 ^ 32 - 1 + 1) % 2 ^ 32 := rfl
  constructor
  · rw [h]
    norm_num
  · rw [h]
    norm_num

/-- C8 amended: the driver's `u32` frame counter starts at `0` and every
frame update sets it to `(count + 1) mod 2^32`; whenever the counter is below
`2^32 − 1` the update increases it by exactly one (so it never decreases
before the `u32` wraps). -/
theorem C8_amended :
    RenderApp.default.frame_count = 0 ∧
    (∀ (s : RenderApp) (ks : List Key),
      (s.update ks).frame_count = (s.frame_count + 1) % 2 ^ 32) ∧
    (∀ (s : RenderApp) (ks : List Key),
      s.frame_count < 2 ^ 32 - 1 → (s.update ks).frame_count = s.frame_count + 1) := by
  refine ⟨rfl, fun s ks => rfl, fun s ks h => ?_⟩
  have heq : (s.update ks).frame_count = (s.frame_count + 1) % 2 ^ 32 := rfl
  rw [heq]
  exact Nat.mod_eq_of_lt (by omega)

/-- Witness for `C8_amended` at the startup state. -/
theorem C8_amended_witness :
    RenderApp.default.frame_count < 2 ^ 32 - 1 ∧
    (RenderApp.default.update []).frame_count = RenderApp.default.frame_count + 1 :=
  ⟨by norm_num [RenderApp.default], C8_amended.2.2 RenderApp.default []
    (by norm_num [RenderApp.default])⟩

/-- C9: pressing any key other than W, S, A, D, Z, X, Left-arrow or
Right-arrow leaves the camera pose (origin and forward direction) completely
unchanged. -/
theorem C9_unrecognized_keys (c : Camera) (k : Key)
    (h : k ≠ .W ∧ k ≠ .S ∧ k ≠ .A ∧ k ≠ .D ∧ k ≠ .Z ∧ k ≠ .X ∧
         k ≠ .ArrowLeft ∧ k ≠ .ArrowRight) :
    applyKey c k = c := by
  obtain ⟨h1, h2, h3, h4, h5, h6, h7, h8⟩ := h
  cases k <;> first | rfl | simp_all

/-- Witness for `C9_unrecognized_keys` at the `Q` key. -/
theorem C9_unrecognized_keys_witness :
    (Key.Q ≠ Key.W ∧ Key.Q ≠ Key.S ∧ Key.Q ≠ Key.A ∧ Key.Q ≠ Key.D ∧
     Key.Q ≠ Key.Z ∧ Key.Q ≠ Key.X ∧ Key.Q ≠ Key.ArrowLeft ∧
     Key.Q ≠ Key.ArrowRight) ∧
    applyKey RenderApp.default.camera Key.Q = RenderApp.default.camera :=
  ⟨by decide, C9_unrecognized_keys RenderApp.default.camera Key.Q (by decide)⟩

/-- C10: each recognized key modifies only its own part of the camera pose:
each translation key keeps the forward direction and changes exactly one
origin component, and each rotation key keeps the origin and the direction's
`z` component. -/
theorem C10_key_effects (c : Camera) :
    ((applyKey c .W).location.direction = c.location.direction ∧
     (applyKey c .W).location.origin.y = c.location.origin.y ∧
     (applyKey c .W).location.origin.z = c.location.origin.z ∧
     (applyKey c .W).location.origin.x ≠ c.location.origin.x) ∧
    ((applyKey c .S).location.direction = c.location.direction ∧
     (applyKey c .S).location.origin.y = c.location.origin.y ∧
     (applyKey c .S).location.origin.z = c.location.origin.z ∧
     (applyKey c .S).location.origin.x ≠ c.location.origin.x) ∧
    ((applyKey c .A).location.direction = c.location.direction ∧
     (applyKey c .A).location.origin.x = c.location.origin.x ∧
     (applyKey c .A).location.origin.z = c.location.origin.z ∧
     (applyKey c .A).location.origin.y ≠ c.location.origin.y) ∧
    ((applyKey c .D).location.direction = c.location.direction ∧
     (applyKey c .D).location.origin.x = c.location.origin.x ∧
     (applyKey c .D).location.origin.z = c.location.origin.z ∧
     (applyKey c .D).location.origin.y ≠ c.location.origin.y) ∧
    ((applyKey c .Z).location.direction = c.location.direction ∧
     (applyKey c .Z).location.origin.x = c.location.origin.x ∧
     (applyKey c .Z).location.origin.y = c.location.origin.y ∧
     (applyKey c .Z).location.origin.z ≠ c.location.origin.z) ∧
    ((applyKey c .X).location.direction = c.location.direction ∧
     (applyKey c .X).location.origin.x = c.location.origin.x ∧
     (applyKey c .X).location.origin.y = c.location.origin.y ∧
     (applyKey c .X).location.origin.z ≠ c.location.origin.z) ∧
    ((applyKey c .ArrowLeft).location.origin = c.location.origin ∧
     (applyKey c .ArrowLeft).location.direction.z = c.location.direction.z) ∧
    ((applyKey c .ArrowRight).location.origin = c.location.origin ∧
     (applyKey c .ArrowRight).location.direction.z = c.location.direction.z) :=
  ⟨⟨rfl, rfl, rfl, add_tenth_ne _⟩,
   ⟨rfl, rfl, rfl, sub_tenth_ne _⟩,
   ⟨rfl, rfl, rfl, sub_tenth_ne _⟩,
   ⟨rfl, rfl, rfl, add_tenth_ne _⟩,
   ⟨rfl, rfl, rfl, add_tenth_ne _⟩,
   ⟨rfl, rfl, rfl, sub_tenth_ne _⟩,
   ⟨rfl, rfl⟩, ⟨rfl, rfl⟩⟩

lemma renderPixel_hit : orderCamera.renderPixel orderScene 0 0 = ⟨0.1, 0, 0, 1⟩ := by
  have h100 : Real.sqrt 100 = 10 := by
    rw [show (100 : ℝ) = 10 ^ 2 by norm_num, Real.sqrt_sq (by norm_num : (0:ℝ) ≤ 10)]
  have h39 : Real.sqrt 39 < 10 := (Real.sqrt_lt' (by norm_num)).2 (by norm_num)
  have ht : (1 / 10000 : ℝ) < (20 - Real.sqrt 39 / Real.sqrt 100) / 2 := by
    rw [h100]
    linarith [Real.sqrt_nonneg 39]
  simp only [Camera.renderPixel, orderCamera, orderScene, Ray.new_preserve,
    Ray.new_normalize, Vec3.normalize, Vec3.len, Vec3.dot, Vec3.cross, Vec3.smul,
    Vec3.add, Vec3.sub, Scene.query, Sphere.intersect, Scene.shade, Sphere.hitAt,
    Rgb.hadamard, Rgb.add, clamp01, background, List.foldl]
  norm_num [Real.sqrt_one]
  rw [if_pos ht]
  norm_num [min_def, max_def]

lemma renderPixel_miss :
    (applyKey orderCamera .D).renderPixel orderScene 0 0 = ⟨0, 0, 0, 1⟩ := by
  simp only [applyKey, Camera.renderPixel, orderCamera, orderScene, Ray.new_preserve,
    Ray.new_normalize, Vec3.normalize, Vec3.len, Vec3.dot, Vec3.cross, Vec3.smul,
    Vec3.add, Vec3.sub, Scene.query, Sphere.intersect, Scene.shade, Sphere.hitAt,
    Rgb.hadamard, Rgb.add, clamp01, background, List.foldl]
  norm_num [Real.sqrt_one]

lemma create_buffer_hit : orderCamera.create_buffer orderScene = [[⟨0.1, 0, 0, 1⟩]] := by
  have h : orderCamera.create_buffer orderScene
      = [[orderCamera.renderPixel orderScene 0 0]] := rfl
  rw [h, renderPixel_hit]

lemma create_buffer_miss :
    (applyKey orderCamera .D).create_buffer orderScene = [[⟨0, 0, 0, 1⟩]] := by
  have h : (applyKey orderCamera .D).create_buffer orderScene
      = [[(applyKey orderCamera .D).renderPixel orderScene 0 0]] := rfl
  rw [h, renderPixel_miss]

/-- C1 as stated is false on the code: `RenderApp::update` renders the frame
first and only afterwards applies the frame's pending key events to the
camera, so the events observed in a frame's input snapshot do not affect that
frame's rendered image.  Concretely, with a grazing camera and a pending `D`
press, the frame's buffer is the pre-`D` render (a red hit pixel), not the
post-`D` render (a background pixel). -/
theorem C1_counterexample :
    ¬ ((orderState.update [Key.D]).buffer
        = ([Key.D].foldl applyKey orderState.camera).create_buffer orderState.scene) := by
  intro hEq
  have h1 : (orderState.update [Key.D]).buffer = [[⟨0.1, 0, 0, 1⟩]] := by
    have h : (orderState.update [Key.D]).buffer
        = orderCamera.create_buffer orderScene := rfl
    rw [h, create_buffer_hit]
  have h2 : ([Key.D].foldl applyKey orderState.camera).create_buffer orderState.scene
      = [[⟨0, 0, 0, 1⟩]] := by
    have h : ([Key.D].foldl applyKey orderState.camera).create_buffer orderState.scene
        = (applyKey orderCamera .D).create_buffer orderScene := rfl
    rw [h, create_buffer_miss]
  rw [h1, h2] at hEq
  simp only [List.cons.injEq, Rgba.mk.injEq, and_true] at hEq
  norm_num at hEq

/-- C1 amended: on every frame the image is rendered from the camera pose as
it stood at the start of the frame, and the frame's pending input events are
applied to the camera only after the render — in full, never partially — so a
key event observed in frame N's input snapshot affects frame N+1's rendered
image, not frame N's. -/
theorem C1_amended (s : RenderApp) (ks ks2 : List Key) :
    (s.update ks).buffer = s.camera.create_buffer s.scene ∧
    (s.update ks).camera = ks.foldl applyKey s.camera ∧
    ((s.update ks).update ks2).buffer
      = (ks.foldl applyKey s.camera).create_buffer s.scene :=
  ⟨rfl, rfl, rfl⟩

end CGraphics
